import Mathlib

/-!
Verification of the momental daily-budget tracker (src/src/App.tsx).

The development shallowly embeds the parts of the program the claims are
about:

* instants are `Int` milliseconds on a local-time axis whose origin is a
  local midnight; there is no DST in the model, so date-fns
  `differenceInDays` (whole days, truncated toward zero) is truncated
  division of the millisecond difference, and `startOfDay` clears the
  time-of-day component;
* JavaScript numbers are modelled by `JsNum`: either a rational or the
  not-a-number sentinel (the program never produces infinities in the
  modelled paths); `Number(string)` is modelled by `jsNumber`, covering the
  decimal fragment (optional sign, digits, fraction, exponent, surrounding
  whitespace, empty string gives 0); hexadecimal and Infinity forms are not
  modelled because no claim touches them;
* the IndexedDB settings object store is an association list with
  `get`/`put`/`add` and the initialization effect is `initOnGet` /
  `initProtocol` (the read result is a parameter of `initOnGet` so that the
  get-then-add race window of the effect can be expressed);
* the SettingsEditor debounce effect is `debounceRun`: each edit clears the
  pending 2000 ms timer and schedules a new one, a timer that has already
  reached its fire time commits the coerced draft via put; `savingNoEdit`
  is the savingSettings flag of an edit-free session (initially true, set
  true again when the commit timer fires, set false by the 2500 ms timer).
-/

/-- JavaScript number: a rational value or the NaN sentinel. -/
inductive JsNum where
  | nan : JsNum
  | num : ℚ → JsNum
deriving DecidableEq

/-- Amount of a stored SpendEntry: the interface allows number | string. -/
inductive Amount where
  | num : ℚ → Amount
  | str : String → Amount
deriving DecidableEq

/-- Stored spend entry (interface SpendEntry of App.tsx). -/
structure SpendEntry where
  id : ℤ
  timestamp : ℤ
  amount : Amount
  note : Option String
deriving DecidableEq

/-- Stored settings record (interface Settings of App.tsx); `anonymousId`
is an `Option` because a record written by an older version of the schema
may miss the field (undefined). -/
structure SettingsRec where
  anonymousId : Option String
  dailyBudget : ℚ
  startAmount : ℚ
  startDate : ℤ
deriving DecidableEq

/-- Transient editor draft (interface DirtySettings of App.tsx): the two
numeric fields are raw text. -/
structure DraftSettings where
  anonymousId : Option String
  dailyBudget : String
  startAmount : String
  startDate : ℤ
deriving DecidableEq

/-- Milliseconds per day. -/
def dayMs : ℤ := 86400000

/-- The date-fns startOfDay: truncate an instant to its local midnight. -/
def startOfDay (t : ℤ) : ℤ := t - t % dayMs

/-- Time-of-day component of an instant. -/
def timeOfDay (t : ℤ) : ℤ := t % dayMs

/-- The date-fns differenceInDays: signed count of whole days between two
instants, truncated toward zero (DST-free model). -/
def differenceInDays (a b : ℤ) : ℤ := Int.tdiv (a - b) dayMs

/-- Modelled from the spec: `calendarDayDifference` of section 4.3, the
signed number of calendar-day boundaries between two instants. -/
def specCalendarDayDifference (a b : ℤ) : ℤ :=
  (startOfDay a - startOfDay b) / dayMs

/-- Whitespace recognised when coercing a string to a number. -/
def isSpaceChar (c : Char) : Bool :=
  c == ' ' || c == '\t' || c == '\n' || c == '\r'

/-- Strip leading and trailing whitespace from a character list. -/
def trimChars (cs : List Char) : List Char :=
  ((cs.dropWhile isSpaceChar).reverse.dropWhile isSpaceChar).reverse

/-- Split a leading run of decimal digits off a character list. -/
def takeDigits : List Char → List ℕ × List Char
  | [] => ([], [])
  | c :: rest =>
    if c.isDigit then
      ((c.toNat - 48) :: (takeDigits rest).1, (takeDigits rest).2)
    else ([], c :: rest)

/-- Value of a digit run read as a natural number. -/
def digitsToNat (ds : List ℕ) : ℕ := ds.foldl (fun a d => 10 * a + d) 0

/-- Value of a digit run read as a fraction after the decimal point. -/
def fracValue (ds : List ℕ) : ℚ := ds.foldr (fun d acc => ((d : ℚ) + acc) / 10) 0

/-- Powers of ten as rationals. -/
def pow10 : ℕ → ℚ
  | 0 => 1
  | n + 1 => 10 * pow10 n

/-- Syntactic shape of a parsed decimal literal: sign, integer digits,
fraction digits, exponent sign and exponent digits. Keeping this phase
free of rationals keeps it computable by the kernel. -/
structure DecParts where
  negSign : Bool
  intDigits : List ℕ
  fracDigits : List ℕ
  negExp : Bool
  expDigits : List ℕ
deriving DecidableEq

/-- Read the digits of an exponent part, rejecting trailing junk. -/
def expDigitsOf (cs : List Char) (neg : Bool) : Option (Bool × List ℕ) :=
  if (takeDigits cs).1.length = 0 ∨ (takeDigits cs).2.length ≠ 0 then none
  else some (neg, (takeDigits cs).1)

/-- Parse the optional exponent of a decimal literal. -/
def parseExpPart (cs : List Char) : Option (Bool × List ℕ) :=
  match cs with
  | [] => some (false, [])
  | c :: rest =>
    if c == 'e' || c == 'E' then
      match rest with
      | [] => none
      | d :: rest2 =>
        if d == '-' then expDigitsOf rest2 true
        else if d == '+' then expDigitsOf rest2 false
        else expDigitsOf rest false
    else none

/-- Parse an unsigned decimal literal: digits, optional point and fraction,
optional exponent; at least one digit is required. -/
def parseUnsignedParts (cs : List Char) : Option (List ℕ × List ℕ × Bool × List ℕ) :=
  match (takeDigits cs).2 with
  | '.' :: r2 =>
    if (takeDigits cs).1.length + (takeDigits r2).1.length = 0 then none
    else (parseExpPart (takeDigits r2).2).map
      (fun e => ((takeDigits cs).1, (takeDigits r2).1, e.1, e.2))
  | _ =>
    if (takeDigits cs).1.length = 0 then none
    else (parseExpPart (takeDigits cs).2).map
      (fun e => ((takeDigits cs).1, [], e.1, e.2))

/-- Parse an optionally signed decimal literal into its syntactic parts. -/
def parseParts (cs : List Char) : Option DecParts :=
  match cs with
  | [] => none
  | c :: rest =>
    if c == '-' then (parseUnsignedParts rest).map
      (fun u => ⟨true, u.1, u.2.1, u.2.2.1, u.2.2.2⟩)
    else if c == '+' then (parseUnsignedParts rest).map
      (fun u => ⟨false, u.1, u.2.1, u.2.2.1, u.2.2.2⟩)
    else (parseUnsignedParts (c :: rest)).map
      (fun u => ⟨false, u.1, u.2.1, u.2.2.1, u.2.2.2⟩)

/-- Rational value of a parsed decimal literal. -/
def partsValue (p : DecParts) : ℚ :=
  if p.negSign then
    -(if p.negExp then
        ((digitsToNat p.intDigits : ℚ) + fracValue p.fracDigits) / pow10 (digitsToNat p.expDigits)
      else
        ((digitsToNat p.intDigits : ℚ) + fracValue p.fracDigits) * pow10 (digitsToNat p.expDigits))
  else
    (if p.negExp then
        ((digitsToNat p.intDigits : ℚ) + fracValue p.fracDigits) / pow10 (digitsToNat p.expDigits)
      else
        ((digitsToNat p.intDigits : ℚ) + fracValue p.fracDigits) * pow10 (digitsToNat p.expDigits))

/-- Number() on an already trimmed character list. -/
def jsNumberChars (cs : List Char) : JsNum :=
  if cs.isEmpty then JsNum.num 0
  else
    match parseParts cs with
    | some p => JsNum.num (partsValue p)
    | none => JsNum.nan

/-- JavaScript Number(string) on the decimal fragment: whitespace-trimmed,
empty means 0, otherwise a signed decimal literal, anything else NaN. -/
def jsNumber (s : String) : JsNum := jsNumberChars (trimChars s.data)

/-- Decimal digit character of `n % 10`. -/
def natDigit (n : ℕ) : Char := Char.ofNat (48 + n % 10)

/-- Fuel-driven decimal digit expansion of a natural number. -/
def natDigitsAux : ℕ → ℕ → List Char
  | 0, _ => []
  | fuel + 1, n =>
    if n = 0 then [] else natDigitsAux fuel (n / 10) ++ [natDigit n]

/-- String of zero. -/
def zeroText : String := "0"

/-- Decimal string of a natural number. -/
def natDecimalRepr (n : ℕ) : String :=
  if n = 0 then zeroText else String.mk (natDigitsAux (n + 1) n)

/-- Pad a two-digit fraction field with a leading zero when needed. -/
def pad2 (n : ℕ) : String :=
  if n < 10 then zeroText ++ natDecimalRepr n else natDecimalRepr n

/-- Round a rational to the nearest integer, half toward positive. -/
def roundHalfUp (q : ℚ) : ℤ := Int.fdiv (2 * q.num + (q.den : ℤ)) (2 * (q.den : ℤ))

/-- Text of the decimal point. -/
def dotText : String := "."

/-- Text of the minus sign. -/
def minusText : String := "-"

/-- Empty text. -/
def emptyText : String := ""

/-- JavaScript toFixed(2) for a nonnegative rational. -/
def toFixed2Abs (q : ℚ) : String :=
  natDecimalRepr ((roundHalfUp (q * 100)).toNat / 100) ++ dotText ++
    pad2 ((roundHalfUp (q * 100)).toNat % 100)

/-- JavaScript toFixed(2): sign split off first, then round to two decimals. -/
def toFixed2 (q : ℚ) : String :=
  if q < 0 then minusText ++ toFixed2Abs (-q) else toFixed2Abs q

/-- Coercion Number(c.amount) applied by the balance reduction. -/
def toNumber : Amount → JsNum
  | Amount.num q => JsNum.num q
  | Amount.str s => jsNumber s

/-- JavaScript addition: NaN absorbs. -/
def jsAdd : JsNum → JsNum → JsNum
  | JsNum.num a, JsNum.num b => JsNum.num (a + b)
  | _, _ => JsNum.nan

/-- JavaScript subtraction: NaN absorbs. -/
def jsSub : JsNum → JsNum → JsNum
  | JsNum.num a, JsNum.num b => JsNum.num (a - b)
  | _, _ => JsNum.nan

/-- Sum of a list of JavaScript numbers. -/
def sumJs : List JsNum → JsNum
  | [] => JsNum.num 0
  | x :: xs => jsAdd x (sumJs xs)

/-- Insert an entry into a list sorted by ascending timestamp. -/
def insertByTime (e : SpendEntry) : List SpendEntry → List SpendEntry
  | [] => [e]
  | x :: xs =>
    if x.timestamp ≤ e.timestamp then x :: insertByTime e xs
    else e :: x :: xs

/-- Sort entries by ascending timestamp; embeds the comparator
`a.timestamp.getTime() - b.timestamp.getTime()` passed to Array.sort. -/
def sortByTime : List SpendEntry → List SpendEntry
  | [] => []
  | e :: es => insertByTime e (sortByTime es)

/-- The balance useMemo of App.tsx: NaN while settings are not loaded,
otherwise the accrued amount minus every coerced entry amount, folded over
the timestamp-sorted entry list. -/
def balanceOf (settings : Option SettingsRec) (entries : List SpendEntry) (now : ℤ) : JsNum :=
  match settings with
  | none => JsNum.nan
  | some s =>
    (sortByTime entries).foldl (fun p c => jsSub p (toNumber c.amount))
      (JsNum.num (s.startAmount + s.dailyBudget * ((differenceInDays now s.startDate + 1 : ℤ) : ℚ)))

/-- Sum of the coerced amounts of an entry list, as written. -/
def sumAmounts (entries : List SpendEntry) : JsNum :=
  sumJs (entries.map fun c => toNumber c.amount)

/-- Modelled from the spec: the balance formula of section 4.3, with the
day count taken from `calendarDayDifference`. -/
def specBalance (s : SettingsRec) (entries : List SpendEntry) (now : ℤ) : JsNum :=
  jsSub
    (JsNum.num (s.startAmount + s.dailyBudget * ((specCalendarDayDifference now s.startDate + 1 : ℤ) : ℚ)))
    (sumAmounts entries)

/-- Settings object store content: an association list of key and record. -/
abbrev SettingsStore := List (String × SettingsRec)

/-- Fixed key of the settings singleton. -/
def settingsKey : String := "settings"

/-- IDBObjectStore.get: first binding of the key, if any. -/
def getKV (k : String) : SettingsStore → Option SettingsRec
  | [] => none
  | kv :: rest => if kv.1 = k then some kv.2 else getKV k rest

/-- IDBObjectStore.put: upsert, replacing the first binding of the key. -/
def putKV (k : String) (v : SettingsRec) : SettingsStore → SettingsStore
  | [] => [(k, v)]
  | kv :: rest => if kv.1 = k then (k, v) :: rest else kv :: putKV k v rest

/-- IDBObjectStore.add: fails (KeyAlreadyExists) when the key is bound. -/
def addKV (k : String) (v : SettingsRec) (store : SettingsStore) : Option SettingsStore :=
  match getKV k store with
  | some _ => none
  | none => some (store ++ [(k, v)])

/-- Number of bindings of a key in the store. -/
def countKey (k : String) (store : SettingsStore) : ℕ :=
  (store.filter fun kv => kv.1 == k).length

/-- Default settings seeded on first run (the init effect of App.tsx);
`gen` is the nanoid() boundary. -/
def defaultSettings (gen : String) (now : ℤ) : SettingsRec :=
  { anonymousId := some gen, dailyBudget := 40, startAmount := 0,
    startDate := startOfDay now }

/-- The auid computation of the init effect: keep a present non-empty
anonymousId, otherwise generate a fresh one. -/
def normalizeAnonymousId (gen : String) (r : SettingsRec) : String :=
  match r.anonymousId with
  | none => gen
  | some a => if a.length < 1 then gen else a

/-- The normalizedSettings value of the init effect: backfilled anonymousId
and day-truncated startDate. -/
def normalizeSettings (gen : String) (r : SettingsRec) : SettingsRec :=
  { r with anonymousId := some (normalizeAnonymousId gen r),
           startDate := startOfDay r.startDate }

/-- The settings branch of the init effect, parameterised by the result of
the initial get so that the get-then-add race window is expressible.
Returns the store after the effect and the record passed to setSettings
(none when nothing was stored in memory). The add path has no rejection
handler in the source: a failed add leaves the store untouched and never
calls setSettings. -/
def initOnGet (gen : String) (now : ℤ) (store : SettingsStore) (res : Option SettingsRec) :
    SettingsStore × Option SettingsRec :=
  match res with
  | none =>
    match addKV settingsKey (defaultSettings gen now) store with
    | some store2 => (store2, some (defaultSettings gen now))
    | none => (store, none)
  | some r =>
    (putKV settingsKey (normalizeSettings gen r) store,
      some (normalizeSettings gen r))

/-- One run of the initialization protocol against a store, with an atomic
read-write transaction (the get result is the current store content). -/
def initProtocol (gen : String) (now : ℤ) (store : SettingsStore) :
    SettingsStore × Option SettingsRec :=
  initOnGet gen now store (getKV settingsKey store)

/-- Whether an init result carries a non-empty anonymousId. -/
def anonIsNonempty : Option SettingsRec → Bool
  | none => false
  | some r =>
    match r.anonymousId with
    | none => false
    | some a => a != emptyText

/-- The commit-time coercion of one numeric draft field:
isNaN(Number(text)) ? 0 : Number(text). -/
def coerceNumberText (t : String) : ℚ :=
  match jsNumber t with
  | JsNum.nan => 0
  | JsNum.num q => q

/-- The record handed to onUpdate (and then to put) when the debounce
timer fires. -/
def commitOf (d : DraftSettings) : SettingsRec :=
  { anonymousId := d.anonymousId,
    dailyBudget := coerceNumberText d.dailyBudget,
    startAmount := coerceNumberText d.startAmount,
    startDate := d.startDate }

/-- Quiescence delay of the settings commit timer (ms). -/
def quiescenceMs : ℤ := 2000

/-- Extra display-only delay of the saving indicator (ms): the second
timer fires at quiescenceMs + savingExtraMs after an edit. -/
def savingExtraMs : ℤ := 500

/-- Debounce semantics of the SettingsEditor effect: the pending timer (if
any) carries its fire time and draft; an event at time t first lets a
pending timer whose fire time has been reached commit, then replaces the
pending timer (the effect cleanup clears a not-yet-fired timer); at the
end of the event list the last pending timer fires. -/
def debounceRun : List (ℤ × DraftSettings) → Option (ℤ × DraftSettings) → List SettingsRec
  | [], none => []
  | [], some p => [commitOf p.2]
  | e :: rest, none => debounceRun rest (some (e.1 + quiescenceMs, e.2))
  | e :: rest, some p =>
    if p.1 ≤ e.1 then commitOf p.2 :: debounceRun rest (some (e.1 + quiescenceMs, e.2))
    else debounceRun rest (some (e.1 + quiescenceMs, e.2))

/-- Commits produced by an editor session: the effect runs once on mount
with the initial draft and once per edit. -/
def settingsEditorCommits (mount : ℤ) (d0 : DraftSettings) (edits : List (ℤ × DraftSettings)) :
    List SettingsRec :=
  debounceRun edits (some (mount + quiescenceMs, d0))

/-- Initial draft built from the settings prop: numeric fields formatted
with toFixed(2). -/
def initialDraft (s : SettingsRec) : DraftSettings :=
  { anonymousId := s.anonymousId,
    dailyBudget := toFixed2 s.dailyBudget,
    startAmount := toFixed2 s.startAmount,
    startDate := s.startDate }

/-- The savingSettings flag over time for an edit-free session mounted at
t0: useState(true) initially, set true again when the commit timer fires
at t0 + 2000, set false by the second timer at t0 + 2500; the editor's
inputs are disabled exactly while this flag is true. -/
def savingNoEdit (t0 t : ℤ) : Bool :=
  if t < t0 + quiescenceMs then true
  else if t < t0 + quiescenceMs + savingExtraMs then true
  else false

/-- Sample generated identifier. -/
def genA : String := "anon-a"

/-- Second sample generated identifier. -/
def genB : String := "anon-b"

/-- Sample non-numeric text. -/
def abcText : String := "abc"

/-- Sample draft texts for the debounce examples. -/
def textOne : String := "1"

/-- Second sample draft text. -/
def textTwo : String := "2"

/-- Third sample draft text. -/
def textThree : String := "3"

/-- Fourth sample draft text. -/
def textFour : String := "4"

/-- Text of 0.00, the toFixed(2) rendering of zero. -/
def zeroFixedText : String := "0.00"

/-- Sample settings record: defaults with a fresh identifier. -/
def sBase : SettingsRec :=
  { anonymousId := some genA, dailyBudget := 40, startAmount := 0, startDate := 0 }

/-- Settings of the reference balance example (startAmount 100). -/
def s190 : SettingsRec :=
  { anonymousId := some genA, dailyBudget := 40, startAmount := 100, startDate := 0 }

/-- Entries of the reference balance example, summing to 30. -/
def entries190 : List SpendEntry :=
  [{ id := 1, timestamp := 3600000, amount := Amount.num 12, note := none },
   { id := 2, timestamp := 7200000, amount := Amount.num 18, note := none }]

/-- Instant two calendar days after day zero, at 01:00. -/
def now190 : ℤ := 176400000

/-- Settings whose startDate is the midnight opening day one. -/
def sDayOne : SettingsRec :=
  { anonymousId := some genA, dailyBudget := 40, startAmount := 0, startDate := 86400000 }

/-- Noon of day zero, before the startDate of sDayOne. -/
def noonDayZero : ℤ := 43200000

/-- Settings whose stored startDate carries an 18:00 time component. -/
def sEvening : SettingsRec :=
  { anonymousId := some genA, dailyBudget := 40, startAmount := 0, startDate := 64800000 }

/-- Instant two days after day zero, at 09:00 (earlier in the day than 18:00). -/
def morningDayTwo : ℤ := 205200000

/-- Instant two days after day zero, at 19:00 (later in the day than 18:00). -/
def eveningDayTwo : ℤ := 241200000

/-- Entry with a non-numeric string amount. -/
def eNaN : SpendEntry :=
  { id := 3, timestamp := 0, amount := Amount.str abcText, note := none }

/-- Entry with a numeric amount of 7. -/
def eSeven : SpendEntry :=
  { id := 4, timestamp := 1000, amount := Amount.num 7, note := none }

/-- Entry with a numeric amount of 5. -/
def eFive : SpendEntry :=
  { id := 5, timestamp := 500, amount := Amount.num 5, note := none }

/-- Sample draft carried by a pending commit timer. -/
def dInit : DraftSettings :=
  { anonymousId := some genA, dailyBudget := textOne, startAmount := zeroText,
    startDate := 0 }

/-- Draft of the first rapid edit. -/
def dEditOne : DraftSettings :=
  { anonymousId := some genA, dailyBudget := textTwo, startAmount := zeroText,
    startDate := 0 }

/-- Draft of the second rapid edit. -/
def dEditTwo : DraftSettings :=
  { anonymousId := some genA, dailyBudget := textThree, startAmount := zeroText,
    startDate := 0 }

/-- Draft of the third rapid edit. -/
def dEditThree : DraftSettings :=
  { anonymousId := some genA, dailyBudget := textFour, startAmount := zeroText,
    startDate := 0 }

/-- Text of a parseable draft number. -/
def textFifty : String := "50"

/-- Second parseable draft text. -/
def textForty : String := "40"

/-- Draft whose dailyBudget alone is the empty string; its startAmount is
parseable. -/
def dEmptyBudget : DraftSettings :=
  { anonymousId := some genA, dailyBudget := emptyText, startAmount := textFifty,
    startDate := 0 }

/-- Draft whose startAmount alone is non-numeric; its dailyBudget is
parseable. -/
def dBadAmount : DraftSettings :=
  { anonymousId := some genA, dailyBudget := textForty, startAmount := abcText,
    startDate := 0 }

/-- Store already holding a settings record under the fixed key. -/
def storeWithBase : SettingsStore := [(settingsKey, sBase)]

/-- Settings whose dailyBudget needs more than two decimals. -/
def sThousandth : SettingsRec :=
  { anonymousId := some genA, dailyBudget := 1 / 1000, startAmount := 0, startDate := 0 }

/-- Settings with two-decimal-exact fields, both zero. -/
def sZeroes : SettingsRec :=
  { anonymousId := some genA, dailyBudget := 0, startAmount := 0, startDate := 0 }

theorem jsSub_nan_right (a : JsNum) : jsSub a JsNum.nan = JsNum.nan := by
  cases a <;> rfl

theorem jsSub_jsSub (a b c : JsNum) : jsSub (jsSub a b) c = jsSub a (jsAdd b c) := by
  cases a <;> cases b <;> cases c <;> simp [jsSub, jsAdd, sub_sub]

theorem jsAdd_left_comm (a b c : JsNum) : jsAdd a (jsAdd b c) = jsAdd b (jsAdd a c) := by
  cases a <;> cases b <;> cases c <;> simp [jsAdd, add_left_comm]

theorem foldl_jsSub (l : List JsNum) (init : JsNum) :
    l.foldl jsSub init = jsSub init (sumJs l) := by
  induction l generalizing init with
  | nil => cases init <;> simp [sumJs, jsSub]
  | cons x xs ih => simp [List.foldl, sumJs, ih, jsSub_jsSub]

theorem sumJs_perm {l l2 : List JsNum} (h : l.Perm l2) : sumJs l = sumJs l2 := by
  induction h with
  | nil => rfl
  | cons x _ ih => simp [sumJs, ih]
  | swap x y l => simp [sumJs, jsAdd_left_comm]
  | trans _ _ ih1 ih2 => rw [ih1, ih2]

theorem sumJs_nan_of_mem {l : List JsNum} (h : JsNum.nan ∈ l) : sumJs l = JsNum.nan := by
  induction l with
  | nil => cases h
  | cons x xs ih =>
    cases h with
    | head => cases sumJs xs <;> rfl
    | tail _ hm =>
      rw [sumJs, ih hm]
      cases x <;> rfl

theorem insertByTime_perm (e : SpendEntry) (l : List SpendEntry) :
    (insertByTime e l).Perm (e :: l) := by
  induction l with
  | nil => exact List.Perm.refl _
  | cons x xs ih =>
    by_cases h : x.timestamp ≤ e.timestamp
    · rw [insertByTime, if_pos h]
      exact (ih.cons x).trans (List.Perm.swap e x xs)
    · rw [insertByTime, if_neg h]

theorem sortByTime_perm (l : List SpendEntry) : (sortByTime l).Perm l := by
  induction l with
  | nil => exact List.Perm.refl _
  | cons e es ih => exact (insertByTime_perm e (sortByTime es)).trans (ih.cons e)

theorem foldl_balance (l : List SpendEntry) (init : JsNum) :
    l.foldl (fun p c => jsSub p (toNumber c.amount)) init =
      jsSub init (sumJs (l.map fun c => toNumber c.amount)) := by
  induction l generalizing init with
  | nil => cases init <;> simp [sumJs, jsSub]
  | cons x xs ih => simp [List.foldl, sumJs, ih, jsSub_jsSub]

theorem balanceOf_eq (s : SettingsRec) (l : List SpendEntry) (now : ℤ) :
    balanceOf (some s) l now =
      jsSub
        (JsNum.num (s.startAmount + s.dailyBudget * ((differenceInDays now s.startDate + 1 : ℤ) : ℚ)))
        (sumAmounts l) := by
  show (sortByTime l).foldl (fun p c => jsSub p (toNumber c.amount)) _ = _
  rw [foldl_balance, sumAmounts]
  congr 1
  exact sumJs_perm ((sortByTime_perm l).map _)

theorem tdiv_eq_ediv_of_nonneg {a b : ℤ} (ha : 0 ≤ a) (hb : 0 ≤ b) :
    Int.tdiv a b = a / b := by
  obtain ⟨m, rfl⟩ := Int.eq_ofNat_of_zero_le ha
  obtain ⟨n, rfl⟩ := Int.eq_ofNat_of_zero_le hb
  rfl

theorem startOfDay_idem (t : ℤ) : startOfDay (startOfDay t) = startOfDay t := by
  simp only [startOfDay, dayMs]
  omega

theorem differenceInDays_eq_calendar (start now : ℤ)
    (hmid : startOfDay start = start) (hle : start ≤ now) :
    differenceInDays now start = specCalendarDayDifference now start := by
  rw [differenceInDays, tdiv_eq_ediv_of_nonneg (by omega) (by decide)]
  simp only [startOfDay, dayMs] at hmid
  simp only [specCalendarDayDifference, startOfDay, dayMs]
  omega

theorem differenceInDays_normalized (start now : ℤ)
    (hday : startOfDay start ≤ startOfDay now) (htime : timeOfDay start ≤ timeOfDay now) :
    differenceInDays now start = differenceInDays now (startOfDay start) := by
  simp only [startOfDay, timeOfDay, dayMs] at hday htime
  have hle : start ≤ now := by omega
  have hle2 : start - start % 86400000 ≤ now := by omega
  rw [differenceInDays, differenceInDays,
    tdiv_eq_ediv_of_nonneg (by omega) (by decide),
    tdiv_eq_ediv_of_nonneg (by simp only [startOfDay, dayMs]; omega) (by decide)]
  simp only [startOfDay, dayMs]
  omega

/-- Claim C6: for every entry list, when the settings record is absent (not
yet loaded) the balance computation returns the not-a-number sentinel
rather than zero. -/
theorem claim_c6_balance_nan_when_settings_absent (entries : List SpendEntry) (now : ℤ) :
    balanceOf none entries now = JsNum.nan ∧ JsNum.nan ≠ JsNum.num 0 :=
  ⟨rfl, by simp⟩

/-- Claim C7: for every settings record and permutation of the entry list,
the computed balance is identical: the sort applied before the reduction
never changes the total. -/
theorem claim_c7_balance_perm_invariant (s : SettingsRec) (now : ℤ)
    {l l2 : List SpendEntry} (h : l.Perm l2) :
    balanceOf (some s) l now = balanceOf (some s) l2 now := by
  rw [balanceOf_eq, balanceOf_eq]
  congr 1
  rw [sumAmounts, sumAmounts]
  exact sumJs_perm (h.map _)

/-- Witness for claim C7 at a concrete pair of permuted entry lists. -/
theorem claim_c7_witness :
    balanceOf (some sBase) [eFive, eSeven] 0 = balanceOf (some sBase) [eSeven, eFive] 0 :=
  claim_c7_balance_perm_invariant sBase 0 (List.Perm.swap eSeven eFive [])

/-- Claim C10: an entry amount may be a string; the balance coerces every
amount with Number() before subtracting (the function is total over such
entries by construction), and one non-numeric-string amount makes the whole
balance NaN. -/
theorem claim_c10_string_amount_poisons_balance (s : SettingsRec)
    (entries : List SpendEntry) (now : ℤ) (e : SpendEntry)
    (hm : e ∈ entries) (hn : toNumber e.amount = JsNum.nan) :
    balanceOf (some s) entries now = JsNum.nan := by
  rw [balanceOf_eq]
  have hs : sumAmounts entries = JsNum.nan := by
    rw [sumAmounts]
    apply sumJs_nan_of_mem
    rw [← hn]
    exact List.mem_map_of_mem _ hm
  rw [hs, jsSub_nan_right]

/-- Witness for claim C10 at an entry list containing a non-numeric string
amount. -/
theorem claim_c10_witness :
    balanceOf (some sBase) [eNaN, eSeven] 0 = JsNum.nan :=
  claim_c10_string_amount_poisons_balance sBase [eNaN, eSeven] 0 eNaN
    (List.Mem.head _) rfl

/-- Claim C5: at commit time each non-numeric-parseable numeric draft text
(and the empty string) is coerced to 0 independently of the other field,
the commit is a total function (never rejected), and a committed
dailyBudget of 0 makes the balance independent of the evaluation instant
(zero accrual per day). -/
theorem claim_c5_commit_coerces_to_zero (d : DraftSettings) (s : SettingsRec)
    (l : List SpendEntry) (n1 n2 : ℤ) :
    ((jsNumber d.dailyBudget = JsNum.nan ∨ d.dailyBudget = emptyText) →
        (commitOf d).dailyBudget = 0 ∧
          balanceOf (some { s with dailyBudget := (commitOf d).dailyBudget }) l n1 =
            balanceOf (some { s with dailyBudget := (commitOf d).dailyBudget }) l n2) ∧
      ((jsNumber d.startAmount = JsNum.nan ∨ d.startAmount = emptyText) →
        (commitOf d).startAmount = 0) := by
  have hempty : jsNumber emptyText = JsNum.num 0 := rfl
  constructor
  · intro hb
    have h1 : (commitOf d).dailyBudget = 0 := by
      cases hb with
      | inl h => simp [commitOf, coerceNumberText, h]
      | inr h => simp [commitOf, coerceNumberText, h, hempty]
    refine ⟨h1, ?_⟩
    rw [balanceOf_eq, balanceOf_eq, h1]
    simp
  · intro ha
    cases ha with
    | inl h => simp [commitOf, coerceNumberText, h]
    | inr h => simp [commitOf, coerceNumberText, h, hempty]

/-- Witness for claim C5 at two single-bad-field drafts: one whose
dailyBudget alone is the empty string, one whose startAmount alone is
non-numeric. -/
theorem claim_c5_witness :
    ((commitOf dEmptyBudget).dailyBudget = 0 ∧
        balanceOf (some { sBase with dailyBudget := (commitOf dEmptyBudget).dailyBudget }) [] 0 =
          balanceOf
            (some { sBase with dailyBudget := (commitOf dEmptyBudget).dailyBudget }) [] 432000000) ∧
      (commitOf dBadAmount).startAmount = 0 :=
  ⟨(claim_c5_commit_coerces_to_zero dEmptyBudget sBase [] 0 432000000).1 (Or.inr rfl),
    (claim_c5_commit_coerces_to_zero dBadAmount sBase [] 0 0).2 (Or.inl rfl)⟩

/-- Claim C4: an edit arriving before a pending commit timer's fire time
cancels it, so three rapid successive edits inside the quiescence window
produce exactly one committed write, holding the last edit's value. -/
theorem claim_c4_debounce_coalesces (pt : ℤ) (pd : DraftSettings) (t1 t2 t3 : ℤ)
    (d1 d2 d3 : DraftSettings) (h1 : t1 < pt) (h2 : t2 < t1 + quiescenceMs)
    (h3 : t3 < t2 + quiescenceMs) :
    debounceRun [(t1, d1), (t2, d2), (t3, d3)] (some (pt, pd)) = [commitOf d3] := by
  have n1 : ¬ pt ≤ t1 := not_le.mpr h1
  have n2 : ¬ t1 + quiescenceMs ≤ t2 := not_le.mpr h2
  have n3 : ¬ t2 + quiescenceMs ≤ t3 := not_le.mpr h3
  simp [debounceRun, n1, n2, n3]

/-- Witness for claim C4 at three rapid concrete edits. -/
theorem claim_c4_witness :
    debounceRun [((100 : ℤ), dEditOne), ((200 : ℤ), dEditTwo), ((300 : ℤ), dEditThree)]
      (some ((2000 : ℤ), dInit)) = [commitOf dEditThree] :=
  claim_c4_debounce_coalesces 2000 dInit 100 200 300 dEditOne dEditTwo dEditThree
    (by decide) (by decide) (by decide)

/-- Claim C1 (amended): the balance equals startAmount plus dailyBudget
times (day difference + 1) minus the sum of entry amounts, where the day
difference the code computes coincides with the calendar-day difference
whenever now is on or after the (midnight-truncated) startDate; the code
truncates toward zero, so inside the day before startDate it counts one
more day than the calendar difference. -/
theorem claim_c1_balance_formula (s : SettingsRec) (l : List SpendEntry) (now : ℤ)
    (hmid : startOfDay s.startDate = s.startDate) (hle : s.startDate ≤ now) :
    balanceOf (some s) l now = specBalance s l now := by
  rw [balanceOf_eq, specBalance, differenceInDays_eq_calendar s.startDate now hmid hle]

/-- Counterexample for claim C1 as stated: at noon of the day before
startDate the code accrues one day (truncation toward zero) while the
calendar-day formula accrues zero, so the two differ with now before
startDate. -/
theorem claim_c1_counterexample :
    noonDayZero < sDayOne.startDate ∧
      balanceOf (some sDayOne) [] noonDayZero ≠ specBalance sDayOne [] noonDayZero := by
  refine ⟨by decide, ?_⟩
  have hb : balanceOf (some sDayOne) [] noonDayZero = JsNum.num 40 := by
    rw [balanceOf_eq]
    rw [show differenceInDays noonDayZero sDayOne.startDate = 0 from by decide]
    norm_num [sumAmounts, sumJs, jsSub, sDayOne]
  have hs : specBalance sDayOne [] noonDayZero = JsNum.num 0 := by
    rw [specBalance]
    rw [show specCalendarDayDifference noonDayZero sDayOne.startDate = -1 from by decide]
    norm_num [sumAmounts, sumJs, jsSub, sDayOne]
  rw [hb, hs]
  simp only [ne_eq, JsNum.num.injEq]
  norm_num

/-- Witness for claim C1 at the reference example: startAmount 100,
dailyBudget 40, startDate two calendar days before now, entries summing to
30, giving 100 + 40 * 3 - 30 = 190. -/
theorem claim_c1_witness :
    balanceOf (some s190) entries190 now190 = JsNum.num 190 := by
  rw [claim_c1_balance_formula s190 entries190 now190 (by decide) (by decide)]
  rw [specBalance]
  rw [show specCalendarDayDifference now190 s190.startDate = 2 from by decide]
  norm_num [sumAmounts, sumJs, jsAdd, jsSub, entries190, toNumber, s190]

/-- Claim C3 (amended): loading normalizes a non-midnight startDate to the
midnight of its calendar day, and the balance is unchanged by the
normalization whenever now's time-of-day is at least the stripped time
component and now's calendar day is not before startDate's; when now's
time-of-day is earlier than the stripped component, normalization can add
one accrued day. -/
theorem claim_c3_normalization (g : String) (r : SettingsRec) (l : List SpendEntry)
    (now : ℤ) (hday : startOfDay r.startDate ≤ startOfDay now)
    (htime : timeOfDay r.startDate ≤ timeOfDay now) :
    (normalizeSettings g r).startDate = startOfDay r.startDate ∧
      startOfDay (normalizeSettings g r).startDate = (normalizeSettings g r).startDate ∧
      balanceOf (some r) l now = balanceOf (some (normalizeSettings g r)) l now := by
  refine ⟨rfl, startOfDay_idem r.startDate, ?_⟩
  rw [balanceOf_eq, balanceOf_eq]
  have h1 : (normalizeSettings g r).startAmount = r.startAmount := rfl
  have h2 : (normalizeSettings g r).dailyBudget = r.dailyBudget := rfl
  have h3 : (normalizeSettings g r).startDate = startOfDay r.startDate := rfl
  rw [h1, h2, h3, differenceInDays_normalized r.startDate now hday htime]

/-- Counterexample for claim C3 as stated: a startDate stored at 18:00
evaluated at 09:00 two days later accrues two days before normalization
and three after, so the balance changes by dailyBudget. -/
theorem claim_c3_counterexample :
    startOfDay sEvening.startDate ≠ sEvening.startDate ∧
      balanceOf (some sEvening) [] morningDayTwo ≠
        balanceOf (some (normalizeSettings genA sEvening)) [] morningDayTwo := by
  refine ⟨by decide, ?_⟩
  have hb : balanceOf (some sEvening) [] morningDayTwo = JsNum.num 80 := by
    rw [balanceOf_eq]
    rw [show differenceInDays morningDayTwo sEvening.startDate = 1 from by decide]
    norm_num [sumAmounts, sumJs, jsSub, sEvening]
  have hn : balanceOf (some (normalizeSettings genA sEvening)) [] morningDayTwo =
      JsNum.num 120 := by
    rw [balanceOf_eq]
    rw [show differenceInDays morningDayTwo (normalizeSettings genA sEvening).startDate = 2
      from by decide]
    norm_num [sumAmounts, sumJs, jsSub, normalizeSettings, sEvening]
  rw [hb, hn]
  simp only [ne_eq, JsNum.num.injEq]
  norm_num

/-- Witness for claim C3 at an evening startDate evaluated later in the
day two days on, where the balance is preserved. -/
theorem claim_c3_witness :
    (normalizeSettings genA sEvening).startDate = startOfDay sEvening.startDate ∧
      startOfDay (normalizeSettings genA sEvening).startDate =
        (normalizeSettings genA sEvening).startDate ∧
      balanceOf (some sEvening) [] eveningDayTwo =
        balanceOf (some (normalizeSettings genA sEvening)) [] eveningDayTwo :=
  claim_c3_normalization genA sEvening [] eveningDayTwo (by decide) (by decide)

theorem countKey_nil (k : String) : countKey k [] = 0 := rfl

theorem countKey_cons (k : String) (kv : String × SettingsRec) (l : SettingsStore) :
    countKey k (kv :: l) = (if kv.1 = k then 1 else 0) + countKey k l := by
  by_cases h : kv.1 = k
  · simp [countKey, List.filter_cons, h]
    omega
  · simp [countKey, List.filter_cons, h]

theorem getKV_none_countKey (k : String) (l : SettingsStore) (h : getKV k l = none) :
    countKey k l = 0 := by
  induction l with
  | nil => rfl
  | cons kv rest ih =>
    rw [countKey_cons]
    by_cases hk : kv.1 = k
    · simp [getKV, hk] at h
    · simp only [getKV, if_neg hk] at h
      simp [hk, ih h]

theorem getKV_append_self (k : String) (v : SettingsRec) (l : SettingsStore)
    (h : getKV k l = none) : getKV k (l ++ [(k, v)]) = some v := by
  induction l with
  | nil => simp [getKV]
  | cons kv rest ih =>
    by_cases hk : kv.1 = k
    · simp [getKV, hk] at h
    · simp only [getKV, if_neg hk] at h
      simp only [List.cons_append, getKV, if_neg hk]
      exact ih h

theorem countKey_append_self (k : String) (v : SettingsRec) (l : SettingsStore) :
    countKey k (l ++ [(k, v)]) = countKey k l + 1 := by
  induction l with
  | nil => simp [countKey_nil, countKey_cons]
  | cons kv rest ih =>
    rw [List.cons_append, countKey_cons, countKey_cons, ih]
    omega

theorem getKV_putKV (k : String) (v : SettingsRec) (l : SettingsStore) :
    getKV k (putKV k v l) = some v := by
  induction l with
  | nil => simp [putKV, getKV]
  | cons kv rest ih =>
    by_cases hk : kv.1 = k
    · simp [putKV, hk, getKV]
    · simp [putKV, hk, getKV, ih]

theorem countKey_putKV (k : String) (v : SettingsRec) (l : SettingsStore)
    (h : countKey k l ≤ 1) : countKey k (putKV k v l) = 1 := by
  induction l with
  | nil => simp [putKV, countKey_nil, countKey_cons]
  | cons kv rest ih =>
    rw [countKey_cons] at h
    by_cases hk : kv.1 = k
    · rw [if_pos hk] at h
      have h0 : countKey k rest = 0 := by omega
      rw [putKV, if_pos hk, countKey_cons, h0]
      simp
    · rw [if_neg hk] at h
      rw [putKV, if_neg hk, countKey_cons, if_neg hk, ih (by omega)]

theorem length_ge_one_of_ne_empty {s : String} (h : s ≠ emptyText) : ¬ s.length < 1 := by
  intro hlt
  apply h
  cases s with
  | mk data =>
    cases data with
    | nil => rfl
    | cons c cs => simp [String.length] at hlt

theorem ne_empty_of_length_ge_one {a : String} (h : ¬ a.length < 1) : a ≠ emptyText := by
  intro he
  subst he
  exact h (by decide)

/-- Claim C2: running the initialization protocol a second time against the
same durable backing yields the same anonymousId as the first run (never
regenerating a present non-empty one), the first run's anonymousId is
non-empty, and exactly one record remains under the fixed settings key.
The generator hypothesis models that nanoid() returns a non-empty token,
and the count hypothesis models the key uniqueness of the object store. -/
theorem claim_c2_init_idempotent (g1 g2 : String) (n1 n2 : ℤ) (store : SettingsStore)
    (hg : g1 ≠ emptyText) (hc : countKey settingsKey store ≤ 1) :
    Option.map SettingsRec.anonymousId (initProtocol g2 n2 (initProtocol g1 n1 store).1).2 =
      Option.map SettingsRec.anonymousId (initProtocol g1 n1 store).2 ∧
      anonIsNonempty (initProtocol g1 n1 store).2 = true ∧
      countKey settingsKey (initProtocol g2 n2 (initProtocol g1 n1 store).1).1 = 1 := by
  cases hget : getKV settingsKey store with
  | none =>
    have hadd : addKV settingsKey (defaultSettings g1 n1) store =
        some (store ++ [(settingsKey, defaultSettings g1 n1)]) := by
      rw [addKV, hget]
    have hp1 : initProtocol g1 n1 store =
        (store ++ [(settingsKey, defaultSettings g1 n1)], some (defaultSettings g1 n1)) := by
      simp [initProtocol, hget, initOnGet, hadd]
    have hget2 : getKV settingsKey (store ++ [(settingsKey, defaultSettings g1 n1)]) =
        some (defaultSettings g1 n1) := getKV_append_self _ _ _ hget
    have hanon : normalizeAnonymousId g2 (defaultSettings g1 n1) = g1 := by
      show (if g1.length < 1 then g2 else g1) = g1
      rw [if_neg (length_ge_one_of_ne_empty hg)]
    have hp2 : initProtocol g2 n2 (store ++ [(settingsKey, defaultSettings g1 n1)]) =
        (putKV settingsKey (normalizeSettings g2 (defaultSettings g1 n1))
          (store ++ [(settingsKey, defaultSettings g1 n1)]),
          some (normalizeSettings g2 (defaultSettings g1 n1))) := by
      simp [initProtocol, hget2, initOnGet]
    refine ⟨?_, ?_, ?_⟩
    · rw [hp1, hp2]
      show some ((normalizeSettings g2 (defaultSettings g1 n1)).anonymousId) =
        some ((defaultSettings g1 n1).anonymousId)
      rw [show (normalizeSettings g2 (defaultSettings g1 n1)).anonymousId =
        some (normalizeAnonymousId g2 (defaultSettings g1 n1)) from rfl, hanon]
      rfl
    · rw [hp1]
      show (g1 != emptyText) = true
      exact bne_iff_ne.mpr hg
    · rw [hp1, hp2]
      apply countKey_putKV
      rw [countKey_append_self, getKV_none_countKey _ _ hget]
  | some r =>
    have hp1 : initProtocol g1 n1 store =
        (putKV settingsKey (normalizeSettings g1 r) store, some (normalizeSettings g1 r)) := by
      simp [initProtocol, hget, initOnGet]
    have hget2 : getKV settingsKey (putKV settingsKey (normalizeSettings g1 r) store) =
        some (normalizeSettings g1 r) := getKV_putKV _ _ _
    have hanon1 : normalizeAnonymousId g1 r ≠ emptyText := by
      rw [normalizeAnonymousId]
      cases hr : r.anonymousId with
      | none => exact hg
      | some a =>
        by_cases hl : a.length < 1
        · simp [hl, hg]
        · simp only [if_neg hl]
          exact ne_empty_of_length_ge_one hl
    have hanon2 : normalizeAnonymousId g2 (normalizeSettings g1 r) = normalizeAnonymousId g1 r := by
      show (if (normalizeAnonymousId g1 r).length < 1 then g2 else normalizeAnonymousId g1 r) =
        normalizeAnonymousId g1 r
      rw [if_neg (length_ge_one_of_ne_empty hanon1)]
    have hp2 : initProtocol g2 n2 (putKV settingsKey (normalizeSettings g1 r) store) =
        (putKV settingsKey (normalizeSettings g2 (normalizeSettings g1 r))
          (putKV settingsKey (normalizeSettings g1 r) store),
          some (normalizeSettings g2 (normalizeSettings g1 r))) := by
      simp [initProtocol, hget2, initOnGet]
    refine ⟨?_, ?_, ?_⟩
    · rw [hp1, hp2]
      show some ((normalizeSettings g2 (normalizeSettings g1 r)).anonymousId) =
        some ((normalizeSettings g1 r).anonymousId)
      rw [show (normalizeSettings g2 (normalizeSettings g1 r)).anonymousId =
        some (normalizeAnonymousId g2 (normalizeSettings g1 r)) from rfl, hanon2]
      rfl
    · rw [hp1]
      show (normalizeAnonymousId g1 r != emptyText) = true
      exact bne_iff_ne.mpr hanon1
    · rw [hp1, hp2]
      exact countKey_putKV _ _ _ (le_of_eq (countKey_putKV _ _ _ hc))

/-- Witness for claim C2 at an empty store and concrete generator outputs. -/
theorem claim_c2_witness :
    Option.map SettingsRec.anonymousId (initProtocol genB 0 (initProtocol genA 0 []).1).2 =
      Option.map SettingsRec.anonymousId (initProtocol genA 0 []).2 ∧
      anonIsNonempty (initProtocol genA 0 []).2 = true ∧
      countKey settingsKey (initProtocol genB 0 (initProtocol genA 0 []).1).1 = 1 :=
  claim_c2_init_idempotent genA genB 0 0 [] (by decide) (by decide)

/-- Claim C8 (amended): when the add of the default record fails because a
record appeared between the get and the add, the store is left unchanged —
the settings singleton is neither lost nor duplicated — but the init
effect has no rejection handler: it performs no re-read and never reaches
Ready (the in-memory settings stays unset). -/
theorem claim_c8_add_failure_preserves_store (g : String) (n : ℤ) (store : SettingsStore)
    (r : SettingsRec) (h : getKV settingsKey store = some r) :
    (initOnGet g n store none).1 = store ∧ (initOnGet g n store none).2 = none ∧
      getKV settingsKey (initOnGet g n store none).1 = some r := by
  have hadd : addKV settingsKey (defaultSettings g n) store = none := by rw [addKV, h]
  refine ⟨?_, ?_, ?_⟩ <;> simp [initOnGet, hadd, h]

/-- Counterexample for claim C8 as stated: after a failed add the protocol
does not reach Ready with the existing record — setSettings is never
called on this path. -/
theorem claim_c8_counterexample :
    ¬ ((initOnGet genB 0 storeWithBase none).2 = some sBase) := by decide

/-- Witness for claim C8 at a store already holding the singleton. -/
theorem claim_c8_witness :
    (initOnGet genB 0 storeWithBase none).1 = storeWithBase ∧
      (initOnGet genB 0 storeWithBase none).2 = none ∧
      getKV settingsKey (initOnGet genB 0 storeWithBase none).1 = some sBase :=
  claim_c8_add_failure_preserves_store genB 0 storeWithBase sBase (by decide)

theorem ratEqMk (n : ℤ) (d : ℕ) (hd : d ≠ 0) (hc : n.natAbs.Coprime d) (q : ℚ)
    (h : (n : ℚ) / (d : ℚ) = q) : q = Rat.mk' n d hd hc := by
  rw [← h, Rat.mk'_eq_divInt, Rat.divInt_eq_div]
  norm_num

theorem roundHalfUp_thousandth : roundHalfUp ((1 : ℚ) / 1000 * 100) = 0 := by
  rw [show (1 : ℚ) / 1000 * 100 = Rat.mk' 1 10 (by decide) (by decide) from
    ratEqMk 1 10 (by decide) (by decide) _ (by norm_num)]
  decide

theorem roundHalfUp_zero_mul : roundHalfUp ((0 : ℚ) * 100) = 0 := by
  rw [show (0 : ℚ) * 100 = Rat.mk' 0 1 (by decide) (by decide) from
    ratEqMk 0 1 (by decide) (by decide) _ (by norm_num)]
  decide

theorem toFixed2_eval (q : ℚ) (n : ℤ) (hq : ¬ q < 0) (hn : roundHalfUp (q * 100) = n) :
    toFixed2 q = natDecimalRepr (n.toNat / 100) ++ dotText ++ pad2 (n.toNat % 100) := by
  rw [toFixed2, if_neg hq, toFixed2Abs, hn]

theorem toFixed2_thousandth : toFixed2 ((1 : ℚ) / 1000) = zeroFixedText := by
  rw [toFixed2_eval ((1 : ℚ) / 1000) 0 (by norm_num) roundHalfUp_thousandth]
  decide

theorem toFixed2_zero : toFixed2 (0 : ℚ) = zeroFixedText := by
  rw [toFixed2_eval (0 : ℚ) 0 (by norm_num) roundHalfUp_zero_mul]
  decide

theorem jsNumber_eval (s : String) (p : DecParts)
    (h1 : (trimChars s.data).isEmpty = false)
    (h2 : parseParts (trimChars s.data) = some p) :
    jsNumber s = JsNum.num (partsValue p) := by
  rw [jsNumber, jsNumberChars, if_neg (by simp [h1]), h2]

theorem jsNumber_zeroFixed : jsNumber zeroFixedText = JsNum.num 0 := by
  rw [jsNumber_eval zeroFixedText ⟨false, [0], [0, 0], false, []⟩ (by decide) (by decide)]
  norm_num [partsValue, digitsToNat, fracValue, pow10]

theorem jsNumber_toFixed2_zero : jsNumber (toFixed2 (0 : ℚ)) = JsNum.num 0 := by
  rw [toFixed2_zero, jsNumber_zeroFixed]

/-- Claim C9 (amended): opening the settings editor schedules a commit even
with no edit at all — after the quiescence delay the two-decimal projection
of the current settings record is written via put; it equals the current
record exactly when both numeric fields survive the toFixed(2) round trip
(a field needing more than two decimals is silently rounded), and the
editor's inputs are disabled throughout the initial saving-indicator
window. -/
theorem claim_c9_mount_commit (s : SettingsRec) (t0 t : ℤ)
    (hb : jsNumber (toFixed2 s.dailyBudget) = JsNum.num s.dailyBudget)
    (ha : jsNumber (toFixed2 s.startAmount) = JsNum.num s.startAmount)
    (_ht1 : t0 ≤ t) (ht2 : t < t0 + quiescenceMs + savingExtraMs) :
    settingsEditorCommits t0 (initialDraft s) [] = [s] ∧ savingNoEdit t0 t = true := by
  constructor
  · show [commitOf (initialDraft s)] = [s]
    have hdb : coerceNumberText (toFixed2 s.dailyBudget) = s.dailyBudget := by
      rw [coerceNumberText, hb]
    have hsa : coerceNumberText (toFixed2 s.startAmount) = s.startAmount := by
      rw [coerceNumberText, ha]
    have hcommit : commitOf (initialDraft s) = s := by
      show SettingsRec.mk s.anonymousId (coerceNumberText (toFixed2 s.dailyBudget))
        (coerceNumberText (toFixed2 s.startAmount)) s.startDate = s
      rw [hdb, hsa]
    rw [hcommit]
  · rw [savingNoEdit]
    by_cases h : t < t0 + quiescenceMs
    · rw [if_pos h]
    · rw [if_neg h, if_pos ht2]

/-- Counterexample for claim C9 as stated: a stored dailyBudget of 1/1000
is formatted as 0.00 on mount, so the edit-free commit writes a record
different from the current one (its dailyBudget becomes 0). -/
theorem claim_c9_counterexample :
    settingsEditorCommits 0 (initialDraft sThousandth) [] ≠ [sThousandth] := by
  intro h
  rw [show settingsEditorCommits 0 (initialDraft sThousandth) [] =
    [commitOf (initialDraft sThousandth)] from rfl, List.cons.injEq] at h
  have h2 : (commitOf (initialDraft sThousandth)).dailyBudget = 0 := by
    show coerceNumberText (toFixed2 sThousandth.dailyBudget) = 0
    rw [show sThousandth.dailyBudget = (1 : ℚ) / 1000 from rfl, toFixed2_thousandth,
      coerceNumberText, jsNumber_zeroFixed]
  rw [h.1] at h2
  rw [show sThousandth.dailyBudget = (1 : ℚ) / 1000 from rfl] at h2
  norm_num at h2

/-- Witness for claim C9 at a record whose numeric fields are exactly
two-decimal (both zero), observed inside the saving window. -/
theorem claim_c9_witness :
    settingsEditorCommits 0 (initialDraft sZeroes) [] = [sZeroes] ∧
      savingNoEdit 0 1000 = true :=
  claim_c9_mount_commit sZeroes 0 1000 jsNumber_toFixed2_zero jsNumber_toFixed2_zero
    (by decide) (by decide)
